import Mathlib

/-
Verification of the transaction-building pipeline in
src/js/src/wallet/createTransaction.ts (solana-pay).

The TypeScript function createTransaction is embedded shallowly:
the ledger client is a function from addresses to optional account
snapshots, BigNumber decimal amounts are pairs (mantissa, scale)
denoting man / 10 ^ exp, and the conversion of a BigNumber to a
JavaScript number (BigNumber.prototype.toNumber, used on line 70 of
the source) is modelled exactly as rounding an integer to the nearest
IEEE-754 binary64 value, ties to even.  This model of toNumber is
exact for every integer of magnitude below 2 ^ 1024 (the double
overflow threshold); all general theorems that involve it carry
hypotheses keeping them inside that range.
-/

set_option maxRecDepth 4000

deriving instance DecidableEq for Except

namespace SolanaPay

/-- Addresses (PublicKey values) are modelled as natural numbers;
equality of keys is exact, which is all the source uses. -/
abbrev PubKey := ℕ

/-- Snapshot of an account as returned by Connection.getAccountInfo:
the owning program, the raw data bytes, and the lamport balance.
The lamports field of the source is a JSON-parsed IEEE-754 double,
so every reachable value of it is an integer representable as a
binary64 value (the parse rounds the on-chain balance); the model
stores that parsed integer, and concrete instantiations use only
representable values. -/
structure AccountInfo where
  owner : PubKey
  data : List ℕ
  lamports : ℕ
  deriving DecidableEq

/-- The error enumeration CreateTransactionError from the source. -/
inductive CreateTransactionError where
  | PAYER_NOT_FOUND
  | RECIPIENT_NOT_FOUND
  | TOKEN_NOT_FOUND
  | TOKEN_INVALID_PROGRAM
  | TOKEN_INVALID_LENGTH
  | TOKEN_MINT_NOT_INITIALIZED
  | AMOUNT_INVALID_DECIMALS
  | PAYER_ATA_NOT_FOUND
  | RECIPIENT_ATA_NOT_FOUND
  | PAYER_INSUFFICIENT_FUNDS
  | PAYER_ATA_INSUFFICIENT_FUNDS
  deriving DecidableEq

/-- A finite decimal number, the model of a BigNumber argument:
the denoted value is man / 10 ^ exp. -/
structure Dec where
  man : ℤ
  exp : ℕ
  deriving DecidableEq

/-- Remove trailing decimal zeros: BigNumber stores values in
normalized form, so a mantissa divisible by ten with positive scale
denotes the same BigNumber as the reduced pair. -/
def stripTrailing : ℤ → ℕ → ℤ × ℕ
  | m, 0 => (m, 0)
  | m, e + 1 => if m % 10 = 0 then stripTrailing (m / 10) e else (m, e + 1)

/-- BigNumber.prototype.decimalPlaces of the denoted value: the scale
after normalization. -/
def decimalPlaces (d : Dec) : ℕ := (stripTrailing d.man d.exp).2

/-- amount.times(10 ^ p).integerValue(BigNumber.ROUND_FLOOR) from
lines 67 and 98 of the source: the floor of man * 10 ^ p / 10 ^ exp,
computed with exact integer arithmetic (Int.fdiv is floor division). -/
def toIntegerFloor (d : Dec) (p : ℕ) : ℤ :=
  if d.exp ≤ p then d.man * 10 ^ (p - d.exp) else Int.fdiv d.man (10 ^ (d.exp - p))

/-- Fuelled floor base-two logarithm (fuel n suffices for every n). -/
def log2fuel : ℕ → ℕ → ℕ
  | 0, _ => 0
  | fuel + 1, n => if 2 ≤ n then log2fuel fuel (n / 2) + 1 else 0

/-- Floor base-two logarithm, total and kernel-computable. -/
def ilog2 (n : ℕ) : ℕ := log2fuel n n

/-- Round s to the nearest multiple of m, ties to the even multiple. -/
def roundHalfEven (s m : ℕ) : ℕ :=
  let q := s / m
  let r := s % m
  if 2 * r < m then q * m
  else if m < 2 * r then (q + 1) * m
  else if q % 2 = 0 then q * m else (q + 1) * m

/-- BigNumber.prototype.toNumber on an integer value (line 70 of the
source): conversion to an IEEE-754 binary64 value, which is exact for
magnitudes up to 2 ^ 53 and otherwise rounds to the nearest
representable integer (52 explicit mantissa bits, ties to even).
Exact model for magnitudes below 2 ^ 1024 only: beyond that the
source saturates to an infinity, which the model does not represent,
so theorems whose conclusions expose the rounded value itself carry
a 2 ^ 1024 magnitude bound on the converted amount. -/
def toNumber (n : ℤ) : ℤ :=
  if n.natAbs ≤ 2 ^ 53 then n
  else (if n < 0 then -1 else 1) * (roundHalfEven n.natAbs (2 ^ (ilog2 n.natAbs - 52)) : ℤ)

/-- The fixed memo program identity (model value). -/
def MEMO_PROGRAM_ID : PubKey := 3

/-- The SPL token program identity (model value). -/
def TOKEN_PROGRAM_ID : PubKey := 1

/-- The associated token program identity (model value). -/
def ASSOCIATED_TOKEN_PROGRAM_ID : PubKey := 2

/-- The system program identity (model value). -/
def systemProgramId : PubKey := 4

/-- SOL has nine decimal places. -/
def SOL_DECIMALS : ℕ := 9

/-- MintLayout.span: byte size of an SPL mint record. -/
def MintLayoutSpan : ℕ := 82

/-- MintLayout.decode, decimals field: the byte at offset 44. -/
def mintDecimals (data : List ℕ) : ℕ := data.getD 44 0

/-- MintLayout.decode, isInitialized field: the byte at offset 45,
truthy in the source exactly when nonzero. -/
def mintIsInitialized (data : List ℕ) : Bool := data.getD 45 0 != 0

/-- AccountLayout.decode, amount field: the unsigned 64-bit
little-endian integer at byte offsets 64 to 71. -/
def accountAmount (data : List ℕ) : ℕ :=
  data.getD 64 0 + 256 * data.getD 65 0 + 256 ^ 2 * data.getD 66 0 + 256 ^ 3 * data.getD 67 0 +
    256 ^ 4 * data.getD 68 0 + 256 ^ 5 * data.getD 69 0 + 256 ^ 6 * data.getD 70 0 +
    256 ^ 7 * data.getD 71 0

/-- Modelled from the spec: Token.getAssociatedTokenAddress (library
code not in this repository).  Per the spec it is a pure deterministic
derivation from the program identities, the mint and the owner; the
model uses an injective pairing of the four inputs. -/
def getAssociatedTokenAddress (associatedProgramId programId mint owner : PubKey) : PubKey :=
  Nat.pair (Nat.pair associatedProgramId programId) (Nat.pair mint owner)

/-- One account slot of an instruction. -/
structure AccountMeta where
  pubkey : PubKey
  isWritable : Bool
  isSigner : Bool
  deriving DecidableEq

/-- Instruction payloads, at the level of detail the source decides:
a native transfer of a lamport count, a checked token transfer of an
amount with an asserted decimal count, or raw memo bytes. -/
inductive InstrData where
  | systemTransfer (lamports : ℤ)
  | tokenTransferChecked (amount : ℤ) (decimals : ℕ)
  | memoData (bytes : List ℕ)
  deriving DecidableEq

/-- A TransactionInstruction: program identity, ordered account list,
payload. -/
structure Instruction where
  programId : PubKey
  keys : List AccountMeta
  data : InstrData
  deriving DecidableEq

/-- SystemProgram.transfer: the payer account writable and signing,
the recipient writable and not signing. -/
def systemTransferInstruction (fromPubkey toPubkey : PubKey) (lamports : ℤ) : Instruction :=
  { programId := systemProgramId
    keys := [⟨fromPubkey, true, true⟩, ⟨toPubkey, true, false⟩]
    data := .systemTransfer lamports }

/-- Token.createTransferCheckedInstruction with no multisig signers:
source writable, mint read-only, destination writable, owner signing. -/
def createTransferCheckedInstruction (programId source mint destination owner : PubKey)
    (amount : ℤ) (decimals : ℕ) : Instruction :=
  { programId := programId
    keys := [⟨source, true, false⟩, ⟨mint, false, false⟩, ⟨destination, true, false⟩,
      ⟨owner, false, true⟩]
    data := .tokenTransferChecked amount decimals }

/-- UTF-8 encoding of one character (code point below 0x110000). -/
def utf8Char (c : Char) : List ℕ :=
  let n := c.toNat
  if n < 128 then [n]
  else if n < 2048 then [192 + n / 64, 128 + n % 64]
  else if n < 65536 then [224 + n / 4096, 128 + n / 64 % 64, 128 + n % 64]
  else [240 + n / 262144, 128 + n / 4096 % 64, 128 + n / 64 % 64, 128 + n % 64]

/-- Buffer.from(memo, utf8): the UTF-8 bytes of the string. -/
def utf8Encode (s : String) : List ℕ := s.data.foldr (fun c acc => utf8Char c ++ acc) []

/-- The memo instruction from lines 149 to 153 of the source: the
fixed memo program, an empty account list, the UTF-8 bytes of the
memo string. -/
def memoInstruction (memo : String) : Instruction :=
  { programId := MEMO_PROGRAM_ID, keys := [], data := .memoData (utf8Encode memo) }

/-- Lines 139 to 141 of the source: when the references option is
present and nonempty, each reference is appended to the account list
of the built instruction as read-only and non-signing, in order. -/
def withReferences (ins : Instruction) (references : Option (List PubKey)) : Instruction :=
  match references with
  | none => ins
  | some refs =>
    if refs.length = 0 then ins
    else { ins with keys := ins.keys ++ refs.map fun pubkey => ⟨pubkey, false, false⟩ }

/-- Lines 144 to 155 of the source: the transaction is the built
instruction followed by the memo instruction when a memo (possibly
empty) was supplied. -/
def assemble (ins : Instruction) (memo : Option String) : List Instruction :=
  match memo with
  | none => [ins]
  | some m => [ins, memoInstruction m]

/-- Lines 59 to 136 of the source: the branch on the token option
producing the transfer instruction or the first failing check. -/
def buildInstruction (getAccountInfo : PubKey → Option AccountInfo) (payer recipient : PubKey)
    (amount : Dec) (token : Option PubKey) (payerInfo : AccountInfo) :
    Except CreateTransactionError Instruction :=
  match token with
  | none =>
    if SOL_DECIMALS < decimalPlaces amount then .error .AMOUNT_INVALID_DECIMALS
    else
      let lamports := toNumber (toIntegerFloor amount SOL_DECIMALS)
      if (payerInfo.lamports : ℤ) < lamports then .error .PAYER_INSUFFICIENT_FUNDS
      else .ok (systemTransferInstruction payer recipient lamports)
  | some token =>
    match getAccountInfo token with
    | none => .error .TOKEN_NOT_FOUND
    | some tokenInfo =>
      if tokenInfo.owner ≠ TOKEN_PROGRAM_ID then .error .TOKEN_INVALID_PROGRAM
      else if tokenInfo.data.length ≠ MintLayoutSpan then .error .TOKEN_INVALID_LENGTH
      else if mintIsInitialized tokenInfo.data = false then .error .TOKEN_MINT_NOT_INITIALIZED
      else
        let decimals := mintDecimals tokenInfo.data
        if decimals < decimalPlaces amount then .error .AMOUNT_INVALID_DECIMALS
        else
          let tokens := toIntegerFloor amount decimals
          let payerATA :=
            getAssociatedTokenAddress ASSOCIATED_TOKEN_PROGRAM_ID TOKEN_PROGRAM_ID token payer
          match getAccountInfo payerATA with
          | none => .error .PAYER_ATA_NOT_FOUND
          | some payerATAInfo =>
            if (accountAmount payerATAInfo.data : ℤ) < tokens then
              .error .PAYER_ATA_INSUFFICIENT_FUNDS
            else
              let recipientATA :=
                getAssociatedTokenAddress ASSOCIATED_TOKEN_PROGRAM_ID TOKEN_PROGRAM_ID token
                  recipient
              match getAccountInfo recipientATA with
              | none => .error .RECIPIENT_ATA_NOT_FOUND
              | some _ =>
                .ok (createTransferCheckedInstruction TOKEN_PROGRAM_ID payerATA token
                  recipientATA payer tokens decimals)

/-- The entry point createTransaction: resolve the payer and the
recipient, run the branch on the token option, append references and
the optional memo. -/
def createTransaction (getAccountInfo : PubKey → Option AccountInfo) (payer recipient : PubKey)
    (amount : Dec) (token : Option PubKey) (references : Option (List PubKey))
    (memo : Option String) : Except CreateTransactionError (List Instruction) :=
  match getAccountInfo payer with
  | none => .error .PAYER_NOT_FOUND
  | some payerInfo =>
    match getAccountInfo recipient with
    | none => .error .RECIPIENT_NOT_FOUND
    | some _ =>
      match buildInstruction getAccountInfo payer recipient amount token payerInfo with
      | .error e => .error e
      | .ok ins => .ok (assemble (withReferences ins references) memo)

/-! ## Arithmetic facts about the decimal conversion -/

/-- Normalization can only shrink the scale. -/
theorem stripTrailing_snd_le (e : ℕ) : ∀ m : ℤ, (stripTrailing m e).2 ≤ e := by
  induction e with
  | zero => intro m; simp [stripTrailing]
  | succ e ih =>
    intro m
    by_cases h : m % 10 = 0
    · simpa [stripTrailing, h] using le_trans (ih (m / 10)) (Nat.le_succ e)
    · simp [stripTrailing, h]

/-- Normalization preserves the denoted value. -/
theorem stripTrailing_mul (e : ℕ) :
    ∀ m : ℤ, (stripTrailing m e).1 * 10 ^ (e - (stripTrailing m e).2) = m := by
  induction e with
  | zero => intro m; simp [stripTrailing]
  | succ e ih =>
    intro m
    by_cases h : m % 10 = 0
    · have hdvd : (10 : ℤ) ∣ m := Int.dvd_of_emod_eq_zero h
      have hle := stripTrailing_snd_le e (m / 10)
      have hstep : e + 1 - (stripTrailing (m / 10) e).2 = (e - (stripTrailing (m / 10) e).2) + 1 :=
        Nat.sub_add_comm hle ▸ rfl
      calc (stripTrailing m (e + 1)).1 * 10 ^ (e + 1 - (stripTrailing m (e + 1)).2)
          = (stripTrailing (m / 10) e).1 * 10 ^ (e + 1 - (stripTrailing (m / 10) e).2) := by
            simp [stripTrailing, h]
        _ = (stripTrailing (m / 10) e).1 * (10 ^ (e - (stripTrailing (m / 10) e).2) * 10) := by
            rw [hstep, pow_succ]
        _ = ((stripTrailing (m / 10) e).1 * 10 ^ (e - (stripTrailing (m / 10) e).2)) * 10 := by
            ring
        _ = (m / 10) * 10 := by rw [ih (m / 10)]
        _ = m := Int.ediv_mul_cancel hdvd
    · simp [stripTrailing, h]

/-- When the amount carries no more fractional digits than the target
precision, the floor conversion is exact: multiplying the result back
by the scale divisor recovers man * 10 ^ p. -/
theorem toIntegerFloor_exact (d : Dec) (p : ℕ) (h : decimalPlaces d ≤ p) :
    toIntegerFloor d p * 10 ^ d.exp = d.man * 10 ^ p := by
  unfold toIntegerFloor
  split
  · next hle =>
    rw [mul_assoc, ← pow_add, Nat.sub_add_cancel hle]
  · next hgt =>
    have hpe : p ≤ d.exp := le_of_not_le hgt
    have h2 := stripTrailing_mul d.exp d.man
    set t := stripTrailing d.man d.exp with ht
    have hts : t.2 ≤ p := h
    have hsplit : d.exp - t.2 = (p - t.2) + (d.exp - p) := by omega
    have hman : d.man = (t.1 * 10 ^ (p - t.2)) * 10 ^ (d.exp - p) := by
      rw [← h2, hsplit, pow_add]; ring
    have hfd : Int.fdiv d.man (10 ^ (d.exp - p)) = t.1 * 10 ^ (p - t.2) := by
      rw [hman]
      exact Int.mul_fdiv_cancel _ (by positivity)
    have hexp : (d.exp - p) + p = d.exp := Nat.sub_add_cancel hpe
    calc Int.fdiv d.man (10 ^ (d.exp - p)) * 10 ^ d.exp
        = t.1 * 10 ^ (p - t.2) * (10 ^ (d.exp - p) * 10 ^ p) := by
          rw [hfd, ← pow_add, hexp]
      _ = t.1 * 10 ^ (p - t.2) * 10 ^ (d.exp - p) * 10 ^ p := by ring
      _ = d.man * 10 ^ p := by rw [← hman]

/-- The conversion as a rational equality. -/
theorem toIntegerFloor_ratCast (d : Dec) (p : ℕ) (h : decimalPlaces d ≤ p) :
    (toIntegerFloor d p : ℚ) = (d.man : ℚ) * 10 ^ p / 10 ^ d.exp := by
  have h1 := toIntegerFloor_exact d p h
  have h2 : ((toIntegerFloor d p : ℤ) : ℚ) * 10 ^ d.exp = (d.man : ℚ) * 10 ^ p := by
    exact_mod_cast congrArg (fun z : ℤ => (z : ℚ)) h1
  field_simp at h2 ⊢
  linarith

/-! ## Characterization of the two branches of createTransaction -/

/-- Native branch: with the payer and recipient resolved, the result
is decided by the precision check and the lamport comparison. -/
theorem createTransaction_native (L : PubKey → Option AccountInfo) (p r : PubKey) (a : Dec)
    (refs : Option (List PubKey)) (memo : Option String) (pi ri : AccountInfo)
    (hp : L p = some pi) (hr : L r = some ri) :
    createTransaction L p r a none refs memo =
      if SOL_DECIMALS < decimalPlaces a then .error .AMOUNT_INVALID_DECIMALS
      else if (pi.lamports : ℤ) < toNumber (toIntegerFloor a SOL_DECIMALS) then
        .error .PAYER_INSUFFICIENT_FUNDS
      else
        .ok (assemble (withReferences
          (systemTransferInstruction p r (toNumber (toIntegerFloor a SOL_DECIMALS))) refs)
          memo) := by
  by_cases h1 : SOL_DECIMALS < decimalPlaces a
  · simp [createTransaction, buildInstruction, hp, hr, h1]
  · by_cases h2 : (pi.lamports : ℤ) < toNumber (toIntegerFloor a SOL_DECIMALS) <;>
      simp [createTransaction, buildInstruction, hp, hr, h1, h2]

/-- Token branch: with the payer, recipient and a valid initialized
mint resolved, the result is decided by the precision check, the
payer token account lookup and balance, and the recipient token
account lookup. -/
theorem createTransaction_token (L : PubKey → Option AccountInfo) (p r t : PubKey) (a : Dec)
    (refs : Option (List PubKey)) (memo : Option String) (pi ri ti : AccountInfo)
    (hp : L p = some pi) (hr : L r = some ri) (ht : L t = some ti)
    (hown : ti.owner = TOKEN_PROGRAM_ID) (hlen : ti.data.length = MintLayoutSpan)
    (hinit : mintIsInitialized ti.data = true) :
    createTransaction L p r a (some t) refs memo =
      if mintDecimals ti.data < decimalPlaces a then .error .AMOUNT_INVALID_DECIMALS
      else
        match L (getAssociatedTokenAddress ASSOCIATED_TOKEN_PROGRAM_ID TOKEN_PROGRAM_ID t p) with
        | none => .error .PAYER_ATA_NOT_FOUND
        | some pATAInfo =>
          if (accountAmount pATAInfo.data : ℤ) < toIntegerFloor a (mintDecimals ti.data) then
            .error .PAYER_ATA_INSUFFICIENT_FUNDS
          else
            match L (getAssociatedTokenAddress ASSOCIATED_TOKEN_PROGRAM_ID TOKEN_PROGRAM_ID t r)
              with
            | none => .error .RECIPIENT_ATA_NOT_FOUND
            | some _ =>
              .ok (assemble (withReferences (createTransferCheckedInstruction TOKEN_PROGRAM_ID
                (getAssociatedTokenAddress ASSOCIATED_TOKEN_PROGRAM_ID TOKEN_PROGRAM_ID t p) t
                (getAssociatedTokenAddress ASSOCIATED_TOKEN_PROGRAM_ID TOKEN_PROGRAM_ID t r) p
                (toIntegerFloor a (mintDecimals ti.data)) (mintDecimals ti.data)) refs)
                memo) := by
  by_cases h1 : mintDecimals ti.data < decimalPlaces a
  · simp [createTransaction, buildInstruction, hp, hr, ht, hown, hlen, hinit, h1]
  · rcases h2 : L (getAssociatedTokenAddress ASSOCIATED_TOKEN_PROGRAM_ID TOKEN_PROGRAM_ID t p)
      with _ | pATAInfo
    · simp [createTransaction, buildInstruction, hp, hr, ht, hown, hlen, hinit, h1, h2]
    · by_cases h3 : (accountAmount pATAInfo.data : ℤ) < toIntegerFloor a (mintDecimals ti.data)
      · simp [createTransaction, buildInstruction, hp, hr, ht, hown, hlen, hinit, h1, h2, h3]
      · rcases h4 : L (getAssociatedTokenAddress ASSOCIATED_TOKEN_PROGRAM_ID TOKEN_PROGRAM_ID
            t r) with _ | rATAInfo <;>
          simp [createTransaction, buildInstruction, hp, hr, ht, hown, hlen, hinit, h1, h2, h3,
            h4]

/-! ## Facts about the double rounding model -/

/-- Double conversion is the identity on integers of magnitude at
most 2 ^ 53. -/
theorem toNumber_eq_of_small (n : ℤ) (h : n.natAbs ≤ 2 ^ 53) : toNumber n = n := by
  unfold toNumber
  rw [if_pos h]

/-- A well-formed mint record: 82 bytes, the given decimals at offset
44, the initialized flag set at offset 45. -/
def sampleMintData (decimals : ℕ) : List ℕ :=
  List.replicate 44 0 ++ [decimals, 1] ++ List.replicate 36 0

/-- C1: for every decimal amount whose number of fractional digits
does not exceed the effective precision, the converted integer equals
the floor of amount times 10 ^ precision under exact arithmetic; in
particular 1.999999999 at precision 9 converts to exactly 1999999999
and createTransaction builds a native transfer of exactly 1999999999
lamports for it, never 2000000000. -/
theorem claimC1_floor_conversion (d : Dec) (p : ℕ) (h : decimalPlaces d ≤ p) :
    toIntegerFloor d p = ⌊(d.man : ℚ) * 10 ^ p / 10 ^ d.exp⌋ ∧
    toIntegerFloor ⟨1999999999, 9⟩ SOL_DECIMALS = 1999999999 ∧
    createTransaction (fun x => if x = 10 ∨ x = 11 then some ⟨4, [], 2000000000⟩ else none)
      10 11 ⟨1999999999, 9⟩ none none none =
      .ok [systemTransferInstruction 10 11 1999999999] := by
  refine ⟨?_, by decide, by decide⟩
  rw [← toIntegerFloor_ratCast d p h, Int.floor_intCast]

/-- Closed instance of C1 at the amount 1.999999999 with precision 9. -/
theorem claimC1_floor_conversion_witness :
    decimalPlaces ⟨1999999999, 9⟩ ≤ 9 ∧
    (toIntegerFloor ⟨1999999999, 9⟩ 9 = ⌊((1999999999 : ℤ) : ℚ) * 10 ^ 9 / 10 ^ (9 : ℕ)⌋ ∧
      toIntegerFloor ⟨1999999999, 9⟩ SOL_DECIMALS = 1999999999 ∧
      createTransaction (fun x => if x = 10 ∨ x = 11 then some ⟨4, [], 2000000000⟩ else none)
        10 11 ⟨1999999999, 9⟩ none none none =
        .ok [systemTransferInstruction 10 11 1999999999]) :=
  ⟨by decide, claimC1_floor_conversion ⟨1999999999, 9⟩ 9 (by decide)⟩

/-- C2: whenever the amount has strictly more fractional digits than
the effective precision (9 in the native branch, the mint decimals in
the token branch with a resolved, valid, initialized mint), the call
fails with AMOUNT_INVALID_DECIMALS, whatever the balances and the
rest of the ledger hold, so no balance check, address derivation, or
instruction construction after that point can influence the result. -/
theorem claimC2_invalid_decimals :
    (∀ (L : PubKey → Option AccountInfo) (p r : PubKey) (pi ri : AccountInfo) (a : Dec)
      (refs : Option (List PubKey)) (memo : Option String),
      L p = some pi → L r = some ri → SOL_DECIMALS < decimalPlaces a →
      createTransaction L p r a none refs memo = .error .AMOUNT_INVALID_DECIMALS) ∧
    (∀ (L : PubKey → Option AccountInfo) (p r t : PubKey) (pi ri ti : AccountInfo) (a : Dec)
      (refs : Option (List PubKey)) (memo : Option String),
      L p = some pi → L r = some ri → L t = some ti →
      ti.owner = TOKEN_PROGRAM_ID → ti.data.length = MintLayoutSpan →
      mintIsInitialized ti.data = true → mintDecimals ti.data < decimalPlaces a →
      createTransaction L p r a (some t) refs memo = .error .AMOUNT_INVALID_DECIMALS) := by
  constructor
  · intro L p r pi ri a refs memo hp hr hdp
    rw [createTransaction_native L p r a refs memo pi ri hp hr, if_pos hdp]
  · intro L p r t pi ri ti a refs memo hp hr ht hown hlen hinit hdp
    rw [createTransaction_token L p r t a refs memo pi ri ti hp hr ht hown hlen hinit,
      if_pos hdp]

/-- Closed instances of C2: amount 0.0000000001 in the native branch,
and amount 0.123 against a mint with two decimals. -/
theorem claimC2_invalid_decimals_witness :
    createTransaction (fun x => if x = 10 ∨ x = 11 then some ⟨4, [], 5⟩ else none)
      10 11 ⟨1, 10⟩ none none none = .error .AMOUNT_INVALID_DECIMALS ∧
    createTransaction
      (fun x => if x = 10 ∨ x = 11 then some ⟨4, [], 5⟩ else
        if x = 20 then some ⟨TOKEN_PROGRAM_ID, sampleMintData 2, 0⟩ else none)
      10 11 ⟨123, 3⟩ (some 20) none none = .error .AMOUNT_INVALID_DECIMALS :=
  ⟨claimC2_invalid_decimals.1 _ 10 11 ⟨4, [], 5⟩ ⟨4, [], 5⟩ ⟨1, 10⟩ none none (by decide)
      (by decide) (by decide),
    claimC2_invalid_decimals.2 _ 10 11 20 ⟨4, [], 5⟩ ⟨4, [], 5⟩
      ⟨TOKEN_PROGRAM_ID, sampleMintData 2, 0⟩ ⟨123, 3⟩ none none (by decide) (by decide)
      (by decide) (by decide) (by decide) (by decide) (by decide)⟩

/-- C4 counterexample: for the converted amount 9007199254740993
(2 ^ 53 + 1) and the payer balance 9007199254740992 (2 ^ 53), the
exact comparison says the funds are insufficient, yet the call
succeeds, because the comparison is made after converting the exact
integer to a double, which rounds it down to 2 ^ 53; the built
instruction even carries the rounded lamport count. -/
theorem claimC4_counterexample :
    toIntegerFloor ⟨9007199254740993, 9⟩ SOL_DECIMALS = 9007199254740993 ∧
    ((9007199254740992 : ℕ) : ℤ) < 9007199254740993 ∧
    createTransaction
      (fun x => if x = 10 ∨ x = 11 then some ⟨4, [], 9007199254740992⟩ else none)
      10 11 ⟨9007199254740993, 9⟩ none none none =
      .ok [systemTransferInstruction 10 11 9007199254740992] :=
  ⟨by decide, by decide, by decide⟩

/-- C4 amended: the native branch compares the double rounding of
the converted amount against the balance; the double conversion is
the identity exactly up to magnitude 2 ^ 53, so the decision agrees
with the exact big-integer comparison on that range but not beyond
it. -/
theorem claimC4_amended_comparison :
    (∀ n : ℤ, n.natAbs ≤ 2 ^ 53 → toNumber n = n) ∧
    (∀ (L : PubKey → Option AccountInfo) (p r : PubKey) (pi ri : AccountInfo) (a : Dec)
      (refs : Option (List PubKey)) (memo : Option String),
      L p = some pi → L r = some ri → decimalPlaces a ≤ SOL_DECIMALS →
      (createTransaction L p r a none refs memo = .error .PAYER_INSUFFICIENT_FUNDS ↔
        (pi.lamports : ℤ) < toNumber (toIntegerFloor a SOL_DECIMALS))) := by
  constructor
  · exact toNumber_eq_of_small
  · intro L p r pi ri a refs memo hp hr hdp
    rw [createTransaction_native L p r a refs memo pi ri hp hr, if_neg (Nat.not_lt.2 hdp)]
    by_cases hc : (pi.lamports : ℤ) < toNumber (toIntegerFloor a SOL_DECIMALS)
    · rw [if_pos hc]
      simp [hc]
    · rw [if_neg hc]
      simp [hc]

/-- Closed instance of C4 amended: the identity on a small integer
and the decision at the rounded boundary value. -/
theorem claimC4_amended_witness :
    toNumber 12345 = 12345 ∧
    (createTransaction
      (fun x => if x = 10 ∨ x = 11 then some ⟨4, [], 9007199254740992⟩ else none)
      10 11 ⟨9007199254740993, 9⟩ none none none = .error .PAYER_INSUFFICIENT_FUNDS ↔
        ((9007199254740992 : ℕ) : ℤ) < toNumber (toIntegerFloor ⟨9007199254740993, 9⟩
          SOL_DECIMALS)) :=
  ⟨claimC4_amended_comparison.1 12345 (by decide),
    claimC4_amended_comparison.2 _ 10 11 ⟨4, [], 9007199254740992⟩ ⟨4, [], 9007199254740992⟩
      ⟨9007199254740993, 9⟩ none none (by decide) (by decide) (by decide)⟩

/-- C5: the four mint validation failures are checked in order, each
guarded by the success of the previous ones, hence mutually
exclusive: absent mint account, wrong owning program, wrong byte
length, uninitialized mint. -/
theorem claimC5_mint_validation_order (L : PubKey → Option AccountInfo) (p r t : PubKey)
    (pi ri : AccountInfo) (a : Dec) (refs : Option (List PubKey)) (memo : Option String)
    (hp : L p = some pi) (hr : L r = some ri) :
    (L t = none → createTransaction L p r a (some t) refs memo = .error .TOKEN_NOT_FOUND) ∧
    (∀ ti : AccountInfo, L t = some ti → ti.owner ≠ TOKEN_PROGRAM_ID →
      createTransaction L p r a (some t) refs memo = .error .TOKEN_INVALID_PROGRAM) ∧
    (∀ ti : AccountInfo, L t = some ti → ti.owner = TOKEN_PROGRAM_ID →
      ti.data.length ≠ MintLayoutSpan →
      createTransaction L p r a (some t) refs memo = .error .TOKEN_INVALID_LENGTH) ∧
    (∀ ti : AccountInfo, L t = some ti → ti.owner = TOKEN_PROGRAM_ID →
      ti.data.length = MintLayoutSpan → mintIsInitialized ti.data = false →
      createTransaction L p r a (some t) refs memo = .error .TOKEN_MINT_NOT_INITIALIZED) := by
  refine ⟨?_, ?_, ?_, ?_⟩
  · intro h
    simp [createTransaction, buildInstruction, hp, hr, h]
  · intro ti hti hown
    simp [createTransaction, buildInstruction, hp, hr, hti, hown]
  · intro ti hti hown hlen
    simp [createTransaction, buildInstruction, hp, hr, hti, hown, hlen]
  · intro ti hti hown hlen hinit
    simp [createTransaction, buildInstruction, hp, hr, hti, hown, hlen, hinit]

/-- Closed instances of C5: one ledger per failure, with every check
before the failing one passing. -/
theorem claimC5_mint_validation_order_witness :
    createTransaction (fun x => if x = 10 ∨ x = 11 then some ⟨4, [], 5⟩ else none)
      10 11 ⟨0, 0⟩ (some 20) none none = .error .TOKEN_NOT_FOUND ∧
    createTransaction
      (fun x => if x = 10 ∨ x = 11 then some ⟨4, [], 5⟩ else
        if x = 20 then some ⟨4, sampleMintData 6, 0⟩ else none)
      10 11 ⟨0, 0⟩ (some 20) none none = .error .TOKEN_INVALID_PROGRAM ∧
    createTransaction
      (fun x => if x = 10 ∨ x = 11 then some ⟨4, [], 5⟩ else
        if x = 20 then some ⟨TOKEN_PROGRAM_ID, [0, 0, 0], 0⟩ else none)
      10 11 ⟨0, 0⟩ (some 20) none none = .error .TOKEN_INVALID_LENGTH ∧
    createTransaction
      (fun x => if x = 10 ∨ x = 11 then some ⟨4, [], 5⟩ else
        if x = 20 then
          some ⟨TOKEN_PROGRAM_ID, List.replicate 44 0 ++ [6, 0] ++ List.replicate 36 0, 0⟩
        else none)
      10 11 ⟨0, 0⟩ (some 20) none none = .error .TOKEN_MINT_NOT_INITIALIZED := by
  refine ⟨?_, ?_, ?_, ?_⟩
  · exact (claimC5_mint_validation_order _ 10 11 20 ⟨4, [], 5⟩ ⟨4, [], 5⟩ ⟨0, 0⟩ none none
      (by decide) (by decide)).1 (by decide)
  · exact (claimC5_mint_validation_order _ 10 11 20 ⟨4, [], 5⟩ ⟨4, [], 5⟩ ⟨0, 0⟩ none none
      (by decide) (by decide)).2.1 ⟨4, sampleMintData 6, 0⟩ (by decide) (by decide)
  · exact (claimC5_mint_validation_order _ 10 11 20 ⟨4, [], 5⟩ ⟨4, [], 5⟩ ⟨0, 0⟩ none none
      (by decide) (by decide)).2.2.1 ⟨TOKEN_PROGRAM_ID, [0, 0, 0], 0⟩ (by decide) (by decide)
      (by decide)
  · exact (claimC5_mint_validation_order _ 10 11 20 ⟨4, [], 5⟩ ⟨4, [], 5⟩ ⟨0, 0⟩ none none
      (by decide) (by decide)).2.2.2
      ⟨TOKEN_PROGRAM_ID, List.replicate 44 0 ++ [6, 0] ++ List.replicate 36 0, 0⟩
      (by decide) (by decide) (by decide) (by decide)

/-- C7: when a memo string is supplied, including the empty string,
a successful call returns exactly two instructions, the transfer
first and second a memo instruction addressed to the fixed memo
program with an empty account list and the UTF-8 bytes of the memo;
the transfer is the same single instruction the memoless call
returns, and without a memo a successful call returns exactly one
instruction. -/
theorem claimC7_memo_assembly :
    (∀ (L : PubKey → Option AccountInfo) (p r : PubKey) (a : Dec) (t : Option PubKey)
      (refs : Option (List PubKey)) (m : String) (txn : List Instruction),
      createTransaction L p r a t refs (some m) = .ok txn →
      ∃ ins, txn = [ins, ⟨MEMO_PROGRAM_ID, [], .memoData (utf8Encode m)⟩] ∧
        createTransaction L p r a t refs none = .ok [ins]) ∧
    (∀ (L : PubKey → Option AccountInfo) (p r : PubKey) (a : Dec) (t : Option PubKey)
      (refs : Option (List PubKey)) (txn : List Instruction),
      createTransaction L p r a t refs none = .ok txn → ∃ ins, txn = [ins]) := by
  constructor
  · intro L p r a t refs m txn h
    rcases hP : L p with _ | pi
    · simp only [createTransaction, hP] at h
      exact absurd h (by simp)
    · rcases hR : L r with _ | ri
      · simp only [createTransaction, hP, hR] at h
        exact absurd h (by simp)
      · rcases hB : buildInstruction L p r a t pi with e | ins0
        · simp only [createTransaction, hP, hR, hB] at h
          exact absurd h (by simp)
        · simp only [createTransaction, hP, hR, hB, assemble] at h
          refine ⟨withReferences ins0 refs, (Except.ok.inj h).symm, ?_⟩
          simp only [createTransaction, hP, hR, hB, assemble]
  · intro L p r a t refs txn h
    rcases hP : L p with _ | pi
    · simp only [createTransaction, hP] at h
      exact absurd h (by simp)
    · rcases hR : L r with _ | ri
      · simp only [createTransaction, hP, hR] at h
        exact absurd h (by simp)
      · rcases hB : buildInstruction L p r a t pi with e | ins0
        · simp only [createTransaction, hP, hR, hB] at h
          exact absurd h (by simp)
        · simp only [createTransaction, hP, hR, hB, assemble] at h
          exact ⟨withReferences ins0 refs, (Except.ok.inj h).symm⟩

/-- Closed instances of C7: a native transfer with the empty memo
string yields the transfer plus the memo instruction with empty
data, and the memoless run yields the single transfer. -/
theorem claimC7_memo_assembly_witness :
    (∃ ins, [systemTransferInstruction 10 11 0, memoInstruction ("")] =
        [ins, ⟨MEMO_PROGRAM_ID, [], .memoData (utf8Encode (""))⟩] ∧
      createTransaction (fun x => if x = 10 ∨ x = 11 then some ⟨4, [], 100⟩ else none)
        10 11 ⟨0, 0⟩ none none none = .ok [ins]) ∧
    (∃ ins, [systemTransferInstruction 10 11 0] = [ins]) :=
  ⟨claimC7_memo_assembly.1 _ 10 11 ⟨0, 0⟩ none none ("")
      [systemTransferInstruction 10 11 0, memoInstruction ("")] (by decide),
    claimC7_memo_assembly.2
      (fun x => if x = 10 ∨ x = 11 then some ⟨4, [], 100⟩ else none) 10 11 ⟨0, 0⟩ none none
      [systemTransferInstruction 10 11 0] (by decide)⟩

/-- C8: for every nonempty reference list, in both branches, the
account list of the transfer instruction of a successful call ends
with exactly the references, each read-only and non-signing, in the
given order, and the preceding accounts are those of the instruction
built without references. -/
theorem claimC8_references_appended (L : PubKey → Option AccountInfo) (p r : PubKey) (a : Dec)
    (t : Option PubKey) (memo : Option String) (rs : List PubKey) (hne : rs ≠ [])
    (txn : List Instruction)
    (h : createTransaction L p r a t (some rs) memo = .ok txn) :
    ∃ ins rest baseKeys, txn = ins :: rest ∧
      ins.keys = baseKeys ++ rs.map (fun pubkey => (⟨pubkey, false, false⟩ : AccountMeta)) ∧
      createTransaction L p r a t none memo = .ok ({ ins with keys := baseKeys } :: rest) := by
  have hlen : ¬ rs.length = 0 := fun hc => hne (List.length_eq_zero.mp hc)
  rcases hP : L p with _ | pi
  · simp only [createTransaction, hP] at h
    exact absurd h (by simp)
  · rcases hR : L r with _ | ri
    · simp only [createTransaction, hP, hR] at h
      exact absurd h (by simp)
    · rcases hB : buildInstruction L p r a t pi with e | ins0
      · simp only [createTransaction, hP, hR, hB] at h
        exact absurd h (by simp)
      · obtain ⟨pid, keys0, dat⟩ := ins0
        rcases memo with _ | m
        · simp only [createTransaction, hP, hR, hB, assemble, withReferences,
            if_neg hlen] at h ⊢
          exact ⟨⟨pid, keys0 ++ rs.map (fun pubkey => ⟨pubkey, false, false⟩), dat⟩, [],
            keys0, (Except.ok.inj h).symm, rfl, rfl⟩
        · simp only [createTransaction, hP, hR, hB, assemble, withReferences,
            if_neg hlen] at h ⊢
          exact ⟨⟨pid, keys0 ++ rs.map (fun pubkey => ⟨pubkey, false, false⟩), dat⟩,
            [memoInstruction m], keys0, (Except.ok.inj h).symm, rfl, rfl⟩

/-- Closed instance of C8: references 7 and 8 are appended to the
native transfer account list as read-only non-signers, after the
payer and recipient slots of the plain instruction. -/
theorem claimC8_references_appended_witness :
    ∃ ins rest baseKeys,
      [(⟨systemProgramId,
          [⟨10, true, true⟩, ⟨11, true, false⟩, ⟨7, false, false⟩, ⟨8, false, false⟩],
          .systemTransfer 0⟩ : Instruction)] = ins :: rest ∧
      ins.keys = baseKeys ++ [7, 8].map (fun pubkey => (⟨pubkey, false, false⟩ : AccountMeta)) ∧
      createTransaction (fun x => if x = 10 ∨ x = 11 then some ⟨4, [], 100⟩ else none)
        10 11 ⟨0, 0⟩ none none none = .ok ({ ins with keys := baseKeys } :: rest) :=
  claimC8_references_appended _ 10 11 ⟨0, 0⟩ none none [7, 8] (by decide) _ (by decide)

/-- C10: supplying an empty reference array is observationally
equivalent to supplying no references: for every ledger and every
other input the two calls return equal results. -/
theorem claimC10_empty_references (L : PubKey → Option AccountInfo) (p r : PubKey) (a : Dec)
    (t : Option PubKey) (memo : Option String) :
    createTransaction L p r a t (some []) memo = createTransaction L p r a t none memo := by
  unfold createTransaction
  cases L p with
  | none => rfl
  | some pi =>
    cases L r with
    | none => rfl
    | some ri =>
      cases buildInstruction L p r a t pi with
      | error e => rfl
      | ok ins => simp [withReferences]

end SolanaPay
